import Mathlib

/-!
Verification development for the ksen query-log HTTP service
(`src/server.js`).

The service is an Express application with three API routes
(`POST /api/queries`, `GET /api/queries`, `GET /api/health`), a CORS
allow-list, a fixed-window rate limiter mounted on `/api/`, and a
retry-on-next-port startup loop.  This file gives a shallow embedding of
the request handlers and middleware decisions as pure Lean functions and
proves the specified request/response contract against them.

Conventions of the embedding:
* JSON documents are the inductive `Json`; machine numbers that appear in
  the service (ids, timestamps, limits) are integers, so `Json.num`
  carries an `Int`.
* The database is a pure value (`Db`): a list of rows plus the next
  serial id.  A handler is a function from the database, the current
  timestamp, the request, and the outcome of its single SQL statement
  (`none` for success, `some e` for a storage error `e`) to a
  `HandlerResult` holding the new database, the HTTP status, the JSON
  response body, and the list of observable side effects (SQL statements
  issued, server-side error logs).
* Absent values (missing query parameter, missing header, SQL `NULL`)
  are `Option`.
-/

namespace Ksen

/-- JSON values as handled by the service.  Numbers are integers, which
covers every number the service produces (row ids, timestamps, limits). -/
inductive Json where
  | null
  | bool (b : Bool)
  | num (n : Int)
  | str (s : String)
  | arr (elems : List Json)
  | obj (fields : List (String × Json))
deriving Repr

/-! Section: The effective listing limit

`GET /api/queries` computes (src/server.js line 91):

  const limit = Math.max(1, Math.min(100, Number(req.query.limit) || 20));
-/

/-- Parses a non-empty list of decimal digits; `none` when the list is
empty or holds a non-digit. -/
def digitsVal : List Char → Option Nat
  | [] => none
  | cs =>
    if cs.all Char.isDigit then
      some (cs.foldl (fun a c => a * 10 + (c.toNat - 48)) 0)
    else none

/-- Strips leading and trailing whitespace from a character list. -/
def jsTrimChars (cs : List Char) : List Char :=
  ((cs.dropWhile Char.isWhitespace).reverse.dropWhile Char.isWhitespace).reverse

/-- Models the JavaScript `Number(s)` conversion on the strings relevant
to the `limit` parameter: the trimmed string is either empty (value `0`),
an optionally signed decimal integer literal, or non-numeric (`NaN`,
modelled as `none`).  Fractional and exponent literals are outside the
integer model and also map to `none`. -/
def jsNumberOfString (s : String) : Option Int :=
  match jsTrimChars s.data with
  | [] => some 0
  | c :: rest =>
    if c = '-' then (digitsVal rest).map (fun n => -(n : Int))
    else if c = '+' then (digitsVal rest).map (fun n => (n : Int))
    else (digitsVal (c :: rest)).map (fun n => (n : Int))

/-- Models `Number(req.query.limit)` where the parameter is `none` when
absent; `Number(undefined)` is `NaN` (`none`). -/
def jsNumberOfParam : Option String → Option Int
  | none => none
  | some s => jsNumberOfString s

/-- The effective limit of the listing endpoint, from src/server.js
line 91: `Math.max(1, Math.min(100, Number(req.query.limit) || 20))`.
The JavaScript `|| 20` replaces any falsy value of `Number(...)` — both
`NaN` and `0` — with `20` before the clamp is applied. -/
def effectiveLimit (limitParam : Option String) : Int :=
  let n : Int :=
    match jsNumberOfParam limitParam with
    | none => 20
    | some v => if v = 0 then 20 else v
  max 1 (min 100 n)

/-- Statement of the spec sentence for the limit, written from the spec
words, for comparison with `effectiveLimit` (which is written from the
code): the parameter is clamped to `[1, 100]`, with `20` used when the
parameter is absent, non-numeric, or numerically zero. -/
def specEffectiveLimit (limitParam : Option String) : Int :=
  match jsNumberOfParam limitParam with
  | none => 20
  | some v => if v = 0 then 20 else max 1 (min 100 v)

/-! Section: Request body validation

The zod schema (src/server.js lines 51-54):

  const QuerySchema = z.object(
    text: z.string().min(1).max(2000),
    meta: z.record(z.any()).optional() );
-/

/-- A request body accepted by the schema: the text, and the meta object
fields when `meta` was present. -/
structure ValidatedQuery where
  text : String
  meta : Option (List (String × Json))
deriving Repr

/-- Validation issues in the shape of `zodError.flatten()`: issues of the
root value, and issues per field. -/
structure ValErrors where
  formErrors : List String
  fieldErrors : List (String × List String)
deriving Repr

/-- Looks a key up in a JSON object field list (first match, as
JavaScript property access on parsed JSON keeps one value per key). -/
def lookupField : List (String × Json) → String → Option Json
  | [], _ => none
  | f :: fs, k => if f.1 = k then some f.2 else lookupField fs k

/-- Validates the `text` field: required, a string, length in `[1, 2000]`
(`z.string().min(1).max(2000)`). -/
def validateText : Option Json → Except (List String) String
  | none => Except.error [("Required")]
  | some (Json.str s) =>
    if s.length < 1 then Except.error [("String must contain at least 1 character(s)")]
    else if 2000 < s.length then
      Except.error [("String must contain at most 2000 character(s)")]
    else Except.ok s
  | some _ => Except.error [("Expected string")]

/-- Validates the `meta` field: optional, but an object when present
(`z.record(z.any()).optional()`). -/
def validateMeta : Option Json → Except (List String) (Option (List (String × Json)))
  | none => Except.ok none
  | some (Json.obj fields) => Except.ok (some fields)
  | some _ => Except.error [("Expected object")]

/-- Collects the issues of one field under its name. -/
def fieldErrsOf {α : Type} (name : String) (r : Except (List String) α) :
    List (String × List String) :=
  match r with
  | Except.ok _ => []
  | Except.error es => [(name, es)]

/-- Models `QuerySchema.safeParse(req.body)`: a non-object body fails at
the root; otherwise both fields are checked and all issues collected. -/
def QuerySchema.safeParse (body : Json) : Except ValErrors ValidatedQuery :=
  match body with
  | Json.obj fields =>
    match validateText (lookupField fields ("text")),
        validateMeta (lookupField fields ("meta")) with
    | Except.ok t, Except.ok m => Except.ok ⟨t, m⟩
    | rt, rm => Except.error ⟨[], fieldErrsOf ("text") rt ++ fieldErrsOf ("meta") rm⟩
  | _ => Except.error ⟨[("Expected object")], []⟩

/-- Whether a parse result is a success. -/
def exceptOk {ε α : Type} : Except ε α → Bool
  | Except.ok _ => true
  | Except.error _ => false

/-- Claim words for a valid `text` field: a string of 1 to 2000
characters. -/
def specTextOk (o : Option Json) : Bool :=
  match o with
  | some (Json.str s) => decide (1 ≤ s.length) && decide (s.length ≤ 2000)
  | _ => false

/-- Claim words for a valid `meta` field: absent or an object. -/
def specMetaOk (o : Option Json) : Bool :=
  match o with
  | none => true
  | some (Json.obj _) => true
  | _ => false

/-- Statement of the claim words for a valid submission, written from the
spec: the body is an object whose `text` is a string of 1 to 2000
characters and whose `meta` is absent or an object. -/
def specValidSubmission (body : Json) : Bool :=
  match body with
  | Json.obj fields =>
    specTextOk (lookupField fields ("text")) && specMetaOk (lookupField fields ("meta"))
  | _ => false

/-- Renders a string list as a JSON array. -/
def strArr (xs : List String) : Json := Json.arr (xs.map Json.str)

/-- Renders `ValErrors` the way `parsed.error.flatten()` appears in the
400 response body. -/
def flattenJson (e : ValErrors) : Json :=
  Json.obj [(("formErrors"), strArr e.formErrors),
    (("fieldErrors"), Json.obj (e.fieldErrors.map (fun p => (p.1, strArr p.2))))]

/-! Section: Requests, the database, and observable handler effects -/

/-- The parts of an Express request the service reads.  `originHeader` is
the Origin request header (`none` when the header is absent), `ips` the
proxy-forwarded address list Express derives under `trust proxy`, `ip`
the resolved client address, and `limitParam` the raw `limit` query
parameter. -/
structure Request where
  method : String
  path : String
  originHeader : Option String
  body : Json
  ips : List String
  ip : Option String
  limitParam : Option String
deriving Repr

/-- One row of the `query_logs` table.  The `meta` column is `jsonb`, so
it holds the JSON value produced by `JSON.stringify(meta || ...)` after
the `::jsonb` cast, i.e. the meta object itself. -/
structure Row where
  id : Int
  text : String
  ip : Option String
  meta : Json
  created_at : Int
deriving Repr

/-- The database: the stored rows (most recently inserted first) and the
next value of the serial `id` column. -/
structure Db where
  rows : List Row
  nextId : Int
deriving Repr

/-- Observable side effects of a handler: SQL statements sent to the
pool, and server-side error logs (`console.error`). -/
inductive Event where
  | dbQuery (sql : String)
  | logError (msg : String)
deriving Repr

/-- Recognizes a SQL statement event. -/
def isDbQuery : Event → Bool
  | Event.dbQuery _ => true
  | Event.logError _ => false

/-- Outcome of one handler invocation: the database afterwards, the HTTP
status, the JSON response body, and the side effects in order. -/
structure HandlerResult where
  db : Db
  status : Nat
  body : Json
  events : List Event
deriving Repr

/-- Tag for the INSERT statement of the create endpoint. -/
def insertSql : String := "INSERT INTO query_logs VALUES RETURNING id, created_at"

/-- Tag for the SELECT statement of the listing endpoint. -/
def selectSql : String := "SELECT id, text, ip, created_at FROM query_logs ORDER BY created_at DESC LIMIT"

/-! Section: The create endpoint, src/server.js lines 59-87 -/

/-- Models the JavaScript `|| null` coercion on the derived address: a
falsy value (absent, or the empty string) becomes `null`. -/
def jsOrNull : Option String → Option String
  | none => none
  | some s => if s = "" then none else some s

/-- The originating address stored by the create endpoint
(src/server.js line 69):
`(req.ips && req.ips.length ? req.ips[0] : req.ip) || null`. -/
def clientIp (req : Request) : Option String :=
  jsOrNull (match req.ips with
    | i :: _ => some i
    | [] => req.ip)

/-- The `meta` value stored by the create endpoint:
`JSON.stringify(meta || ...)` under the `::jsonb` cast stores the meta
object, or the empty object when `meta` was absent. -/
def storedMeta (m : Option (List (String × Json))) : Json :=
  Json.obj (m.getD [])

/-- The `POST /api/queries` handler (src/server.js lines 59-87).  `t` is
the insert-time timestamp the database assigns to `created_at`; `dbFail`
is the outcome of the single INSERT (`some e` when the pool query throws
`e`). -/
def postQueries (db : Db) (t : Int) (dbFail : Option String) (req : Request) :
    HandlerResult :=
  match QuerySchema.safeParse req.body with
  | Except.error e =>
    ⟨db, 400,
      Json.obj [(("error"), Json.str ("Invalid payload")), (("details"), flattenJson e)],
      []⟩
  | Except.ok v =>
    match dbFail with
    | some e =>
      ⟨db, 500, Json.obj [(("error"), Json.str ("DB insert failed"))],
        [Event.dbQuery insertSql, Event.logError e]⟩
    | none =>
      let row : Row := ⟨db.nextId, v.text, clientIp req, storedMeta v.meta, t⟩
      ⟨⟨row :: db.rows, db.nextId + 1⟩, 201,
        Json.obj [(("ok"), Json.bool true), (("id"), Json.num db.nextId),
          (("createdAt"), Json.num t)],
        [Event.dbQuery insertSql]⟩

/-! Section: The listing endpoint, src/server.js lines 90-105 -/

/-- Inserts a row into a list ordered by descending `created_at`,
keeping the order. -/
def insertDesc (r : Row) : List Row → List Row
  | [] => [r]
  | x :: xs => if x.created_at ≤ r.created_at then r :: x :: xs else x :: insertDesc r xs

/-- Models `ORDER BY created_at DESC`: sorts the rows by descending
`created_at` (insertion sort; relative order among equal timestamps is
unspecified by SQL, so any consistent choice is a faithful model). -/
def sortByCreatedDesc : List Row → List Row
  | [] => []
  | r :: rs => insertDesc r (sortByCreatedDesc rs)

/-- Models the SELECT of the listing endpoint: the rows in descending
`created_at` order, cut to the LIMIT. -/
def selectRecent (rows : List Row) (n : Nat) : List Row :=
  (sortByCreatedDesc rows).take n

/-- One listing item: the SELECT projects `id, text, ip, created_at` and
nothing else (`meta` is not selected). -/
def rowToItem (r : Row) : Json :=
  Json.obj [(("id"), Json.num r.id), (("text"), Json.str r.text),
    (("ip"), match r.ip with
      | none => Json.null
      | some s => Json.str s),
    (("created_at"), Json.num r.created_at)]

/-- The keys of a JSON object, in order. -/
def itemKeys : Json → List String
  | Json.obj fs => fs.map Prod.fst
  | _ => []

/-- The `GET /api/queries` handler (src/server.js lines 90-105). -/
def getQueries (db : Db) (dbFail : Option String) (req : Request) : HandlerResult :=
  let limit := (effectiveLimit req.limitParam).toNat
  match dbFail with
  | some e =>
    ⟨db, 500, Json.obj [(("error"), Json.str ("DB select failed"))],
      [Event.dbQuery selectSql, Event.logError e]⟩
  | none =>
    ⟨db, 200,
      Json.obj [(("ok"), Json.bool true),
        (("items"), Json.arr ((selectRecent db.rows limit).map rowToItem))],
      [Event.dbQuery selectSql]⟩

/-! Section: The health endpoint, src/server.js lines 108-110 -/

/-- The `GET /api/health` handler: it touches neither the request nor
the pool, so the database and the storage outcome are ignored. -/
def getHealth (db : Db) (_dbFail : Option String) : HandlerResult :=
  ⟨db, 200, Json.obj [(("ok"), Json.bool true)], []⟩

/-! Section: CORS, src/server.js lines 19-34 -/

/-- Splits a character list at every comma, the way `split(',')` does:
splitting the empty list yields one empty group. -/
def splitCommaChars : List Char → List (List Char)
  | [] => [[]]
  | c :: rest =>
    if c = ',' then [] :: splitCommaChars rest
    else
      match splitCommaChars rest with
      | [] => [[c]]
      | g :: gs => (c :: g) :: gs

/-- The allow-list read at startup (src/server.js lines 20-23):
`(process.env.CORS_ORIGIN || ...).split(',').map(trim).filter(Boolean)`.
The environment variable is `none` when unset. -/
def corsOrigins (env : Option String) : List String :=
  (((splitCommaChars (env.getD ("")).data).map
    (fun cs => String.mk (jsTrimChars cs))).filter (fun s => !s.data.isEmpty))

/-- What the origin callback passes to `cb`: the error argument (always
`null` in this code) and the allow decision. -/
structure CorsDecision where
  error : Option String
  allow : Bool
deriving Repr, DecidableEq

/-- The origin callback (src/server.js lines 27-31): allow when the
origin is falsy (header absent, or the empty string), when the
allow-list is empty, or when the allow-list holds the origin; otherwise
deny.  Both branches pass `null` as the error. -/
def corsOriginCallback (origins : List String) (origin : Option String) : CorsDecision :=
  match origin with
  | none => ⟨none, true⟩
  | some s =>
    if s = "" then ⟨none, true⟩
    else if origins.isEmpty then ⟨none, true⟩
    else if origins.contains s then ⟨none, true⟩
    else ⟨none, false⟩

/-- The cors middleware options beyond the origin callback:
`credentials: true` (src/server.js line 32). -/
structure CorsConfig where
  credentials : Bool
deriving Repr

/-- The configured cors options. -/
def corsConfig : CorsConfig := ⟨true⟩

/-- The cors middleware is mounted with a bare `app.use` (line 25), so it
runs on every path. -/
def corsAppliesTo (_path : String) : Bool := true

/-- The decision the cors middleware takes for a whole request: the
middleware hands the callback only the Origin request header. -/
def corsDecisionFor (origins : List String) (req : Request) : CorsDecision :=
  corsOriginCallback origins req.originHeader

/-- Statement of the claim words for the CORS decision, written from the
spec: permitted iff the allow-list is empty, or the request carries no
origin header, or the origin is a member of the allow-list. -/
def specCorsAllow (origins : List String) (origin : Option String) : Bool :=
  origins.isEmpty || origin.isNone || origins.contains (origin.getD (""))

/-- The amended claim words: permitted iff the allow-list is empty, or
the origin header is absent or empty, or the origin is a member of the
allow-list. -/
def specCorsAllowAmended (origins : List String) (origin : Option String) : Bool :=
  origins.isEmpty || decide (origin.getD ("") = "") || origins.contains (origin.getD (""))

/-! Section: Rate limiting, src/server.js lines 36-46 -/

/-- The options given to `rateLimit(...)` (src/server.js lines 39-45). -/
structure RateLimitConfig where
  windowMs : Nat
  max : Nat
  standardHeaders : Bool
  legacyHeaders : Bool
deriving Repr

/-- The configured limiter: 60 second fixed window, at most 60 hits,
standard headers on, legacy headers off. -/
def rlConfig : RateLimitConfig := ⟨60000, 60, true, false⟩

/-- The limiter is mounted with `app.use` on the API mount path (line 38),
so it runs only on paths under the API mount point. -/
def rateLimitAppliesTo (path : String) : Bool :=
  match path.data with
  | '/' :: 'a' :: 'p' :: 'i' :: '/' :: _ => true
  | _ => false

/-- The limiter key (src/server.js line 44): `keyGenerator: (req) => req.ip`,
the resolved client address. -/
def rateLimitKey (req : Request) : Option String := req.ip

/-- State of the fixed-window counter: the index of the current window
and the hit count per key inside it. -/
structure RateState where
  windowIdx : Nat
  counts : List (String × Nat)
deriving Repr

/-- The hit count recorded for a key. -/
def getCount : List (String × Nat) → String → Nat
  | [], _ => 0
  | p :: rest, k => if p.1 = k then p.2 else getCount rest k

/-- Stores a hit count for a key. -/
def setCount (counts : List (String × Nat)) (k : String) (n : Nat) :
    List (String × Nat) :=
  match counts with
  | [] => [(k, n)]
  | p :: rest => if p.1 = k then (k, n) :: rest else p :: setCount rest k n

/-- Modelled from the spec: one step of the fixed-window counter.  The
counter itself lives in the express-rate-limit library (only its
configuration is in src/server.js lines 37-46); the spec glossary
defines fixed window rate limiting as counting requests per key within a
fixed interval and resetting the count at each interval boundary.  At
time `t` (milliseconds) the window is `t / windowMs`; entering a new
window clears the counts; the hit count of the key is incremented and
the request is allowed when the new count stays within the limit. -/
def rlStep (st : RateState) (t : Nat) (k : String) : RateState × Bool :=
  let stw := if t / rlConfig.windowMs ≠ st.windowIdx
    then RateState.mk (t / rlConfig.windowMs) [] else st
  let c := getCount stw.counts k + 1
  (⟨stw.windowIdx, setCount stw.counts k c⟩, decide (c ≤ rlConfig.max))

/-- Runs the limiter over a list of timestamped keyed requests, returning
the final state and the allow decision of each request in order. -/
def rlRun (st : RateState) : List (Nat × String) → RateState × List Bool
  | [] => (st, [])
  | e :: es =>
    let s1 := rlStep st e.1 e.2
    let s2 := rlRun s1.1 es
    (s2.1, s1.2 :: s2.2)

/-- How many of the requests with the given key were allowed, pairing
each request with its decision. -/
def allowedCountFor (k : String) : List (Nat × String) → List Bool → Nat
  | e :: es, d :: ds =>
    (if e.2 = k ∧ d = true then 1 else 0) + allowedCountFor k es ds
  | _, _ => 0

/-- Sixty-one requests from one address, 100 ms apart, all inside the
first window. -/
def sixtyOneRequests : List (Nat × String) :=
  (List.range 61).map (fun i => (i * 100, ("1.2.3.4")))

/-! Section: Server startup, src/server.js lines 118-136 -/

/-- Outcome of one attempt to bind a port. -/
inductive BindOutcome where
  | ok
  | addrInUse
  | otherErr (msg : String)
deriving Repr, DecidableEq

/-- Where the startup loop ends: listening on a port, or stopped after an
error was logged.  `abortsProcess` records whether the process was
explicitly terminated on that path (the source handler only calls
`console.error`, it never exits the process). -/
inductive StartResult where
  | listening (port : Nat)
  | erroredOut (logMsg : String) (abortsProcess : Bool)
deriving Repr, DecidableEq

/-- The `startServer` retry loop (src/server.js lines 121-134): bind the
port; on `EADDRINUSE` warn and recurse on the next port; on any other
error log it and stop (without terminating the process).  `env` gives
the bind outcome per port; `fuel` bounds the recursion depth so the
function is total in Lean, with `none` when the unbounded source
recursion would still be running. -/
def startServer (env : Nat → BindOutcome) (fuel : Nat) (port : Nat) :
    Option StartResult :=
  match fuel with
  | 0 => none
  | Nat.succ f =>
    match env port with
    | BindOutcome.ok => some (StartResult.listening port)
    | BindOutcome.addrInUse => startServer env f (port + 1)
    | BindOutcome.otherErr m => some (StartResult.erroredOut m false)

/-- Whether a start result terminated the process. -/
def resultAborts : StartResult → Bool
  | StartResult.listening _ => false
  | StartResult.erroredOut _ b => b

/-- The configured port (src/server.js line 119):
`process.env.PORT || 8080`, with `none` for an unset or empty variable. -/
def defaultPort (envPort : Option Nat) : Nat := envPort.getD 8080

/-! Section: Concrete sample values used by witnesses -/

/-- A valid create request: text and a meta object, one forwarded
address. -/
def sampleCreateReq : Request :=
  ⟨("POST"), ("/api/queries"), some ("https://a.com"),
    Json.obj [(("text"), Json.str ("hello")), (("meta"), Json.obj [(("k"), Json.num 1)])],
    [("1.2.3.4")], some ("9.9.9.9"), none⟩

/-- An invalid create request: empty text. -/
def sampleBadReq : Request :=
  ⟨("POST"), ("/api/queries"), none,
    Json.obj [(("text"), Json.str (""))],
    [], some ("9.9.9.9"), none⟩

/-- A listing request with `limit=1`. -/
def sampleListReq : Request :=
  ⟨("GET"), ("/api/queries"), none, Json.null, [], some ("9.9.9.9"), some ("1")⟩

/-- A second request that shares the origin header of `sampleCreateReq`
but differs in method, path and body. -/
def sampleOtherReq : Request :=
  ⟨("GET"), ("/other"), some ("https://a.com"), Json.null, [], none, none⟩

/-- A one-row database. -/
def sampleDb : Db :=
  ⟨[⟨1, ("hi"), none, Json.obj [], 5⟩], 2⟩

/-- A bind environment where ports below 8082 are taken and 8082 is
free. -/
def retryEnv : Nat → BindOutcome :=
  fun p => if p < 8082 then BindOutcome.addrInUse else BindOutcome.ok

/-! Section: Helper lemmas -/

/-- Membership through `insertDesc`. -/
theorem mem_insertDesc {x r : Row} {l : List Row} :
    x ∈ insertDesc r l ↔ x = r ∨ x ∈ l := by
  induction l with
  | nil => simp [insertDesc]
  | cons y ys ih =>
    by_cases hc : y.created_at ≤ r.created_at
    · simp [insertDesc, hc]
    · simp [insertDesc, hc, ih]
      tauto

/-- Insertion keeps descending `created_at` order. -/
theorem pairwise_insertDesc {r : Row} {l : List Row}
    (h : List.Pairwise (fun a b => b.created_at ≤ a.created_at) l) :
    List.Pairwise (fun a b => b.created_at ≤ a.created_at) (insertDesc r l) := by
  induction l with
  | nil => simp [insertDesc]
  | cons y ys ih =>
    rw [List.pairwise_cons] at h
    obtain ⟨hy, hys⟩ := h
    by_cases hc : y.created_at ≤ r.created_at
    · simp only [insertDesc, if_pos hc]
      rw [List.pairwise_cons]
      refine ⟨?_, List.pairwise_cons.mpr ⟨hy, hys⟩⟩
      intro b hb
      rcases List.mem_cons.mp hb with hb | hb
      · subst hb
        exact hc
      · exact le_trans (hy b hb) hc
    · simp only [insertDesc, if_neg hc]
      rw [List.pairwise_cons]
      refine ⟨?_, ih hys⟩
      intro b hb
      rcases mem_insertDesc.mp hb with hb | hb
      · subst hb
        omega
      · exact hy b hb

/-- The sort keeps descending `created_at` order throughout. -/
theorem pairwise_sortByCreatedDesc (l : List Row) :
    List.Pairwise (fun a b => b.created_at ≤ a.created_at) (sortByCreatedDesc l) := by
  induction l with
  | nil => simp [sortByCreatedDesc]
  | cons r rs ih => exact pairwise_insertDesc ih

/-- The sort neither adds nor drops rows. -/
theorem mem_sortByCreatedDesc {x : Row} {l : List Row} :
    x ∈ sortByCreatedDesc l ↔ x ∈ l := by
  induction l with
  | nil => simp [sortByCreatedDesc]
  | cons r rs ih =>
    simp [sortByCreatedDesc, mem_insertDesc, ih]

/-- The origin callback never passes an error to `cb`. -/
theorem corsOriginCallback_error_none (origins : List String) (origin : Option String) :
    (corsOriginCallback origins origin).error = none := by
  cases origin with
  | none => rfl
  | some s =>
    simp only [corsOriginCallback]
    split_ifs <;> rfl

/-- The parse of an object body succeeds exactly when both field
validations succeed. -/
theorem exceptOk_safeParse_obj (fields : List (String × Json)) :
    exceptOk (QuerySchema.safeParse (Json.obj fields))
      = (exceptOk (validateText (lookupField fields ("text")))
          && exceptOk (validateMeta (lookupField fields ("meta")))) := by
  simp only [QuerySchema.safeParse]
  cases validateText (lookupField fields ("text")) with
  | error es => cases validateMeta (lookupField fields ("meta")) <;> rfl
  | ok t => cases validateMeta (lookupField fields ("meta")) <;> rfl

/-- Text validation succeeds exactly on the spec-valid text values. -/
theorem exceptOk_validateText (o : Option Json) :
    exceptOk (validateText o) = specTextOk o := by
  rcases o with _ | j
  · rfl
  · rcases j with _ | b | n | s | xs | fs
    case str =>
      simp only [validateText, specTextOk]
      split_ifs with h1 h2
      · have hn : ¬ (1 ≤ s.length) := by omega
        simp [exceptOk, hn]
      · have ha : 1 ≤ s.length := by omega
        have hb : ¬ (s.length ≤ 2000) := by omega
        simp [exceptOk, ha, hb]
      · have ha : 1 ≤ s.length := by omega
        have hb : s.length ≤ 2000 := by omega
        simp [exceptOk, ha, hb]
    all_goals rfl

/-- Meta validation succeeds exactly on the spec-valid meta values. -/
theorem exceptOk_validateMeta (o : Option Json) :
    exceptOk (validateMeta o) = specMetaOk o := by
  rcases o with _ | j
  · rfl
  · rcases j with _ | _ | _ | _ | _ | _ <;> rfl

/-- Derived address under the (realistic) assumption that addresses are
non-empty strings: the first forwarded address when the forwarded list is
non-empty, else the resolved peer address. -/
theorem clientIp_spec (req : Request) (h1 : ∀ s ∈ req.ips, s ≠ "")
    (h2 : req.ip ≠ some ("")) :
    clientIp req = (match req.ips with
      | i :: _ => some i
      | [] => req.ip) := by
  unfold clientIp jsOrNull
  cases hips : req.ips with
  | nil =>
    cases hip : req.ip with
    | none => rfl
    | some s =>
      have hs : s ≠ "" := by
        intro hs
        exact h2 (by rw [hip, hs])
      simp [hs]
  | cons i rest =>
    have hi : i ≠ "" := h1 i (by rw [hips]; exact List.mem_cons_self i rest)
    simp [hi]

/-! Section: Claims -/

/-- C1 counterexample: the claim says `limit=0` yields an effective limit
of 1, but the code applies the `|| 20` default to the falsy value `0`
before clamping, so `limit=0` yields 20. -/
theorem C1_limit_zero_counterexample :
    effectiveLimit (some ("0")) = 20 ∧ ¬ effectiveLimit (some ("0")) = 1 := by
  decide

/-- C1 (amended): the effective limit is the limit parameter clamped to
`[1, 100]`, with 20 used when the parameter is absent, non-numeric, or
numerically zero; `limit=500` yields 100 and `limit=-5` yields 1, but
`limit=0` yields 20.  The result always lies in `[1, 100]`. -/
theorem C1_effective_limit_amended :
    (∀ q, effectiveLimit q = specEffectiveLimit q) ∧
    (∀ q, 1 ≤ effectiveLimit q ∧ effectiveLimit q ≤ 100) ∧
    effectiveLimit (some ("500")) = 100 ∧
    effectiveLimit (some ("-5")) = 1 ∧
    effectiveLimit (some ("0")) = 20 ∧
    effectiveLimit none = 20 ∧
    effectiveLimit (some ("abc")) = 20 := by
  refine ⟨?_, ?_, by decide, by decide, by decide, by decide, by decide⟩
  · intro q
    unfold effectiveLimit specEffectiveLimit
    cases jsNumberOfParam q with
    | none => norm_num
    | some v =>
      by_cases hv : v = 0
      · simp only [hv, if_pos rfl]
        norm_num
      · simp only [if_neg hv]
  · intro q
    unfold effectiveLimit
    refine ⟨le_max_left _ _, max_le (by norm_num) (min_le_left _ _)⟩

/-- C9: the health endpoint answers 200 with an ok body, issues no
storage query, leaves the database untouched, and its result does not
depend on storage availability. -/
theorem C9_health_no_storage :
    ∀ (db : Db) (f g : Option String),
      (getHealth db f).status = 200 ∧
      (getHealth db f).body = Json.obj [(("ok"), Json.bool true)] ∧
      (getHealth db f).events = [] ∧
      getHealth db f = getHealth db g ∧
      (getHealth db f).db = db :=
  fun _ _ _ => ⟨rfl, rfl, rfl, rfl, rfl⟩

/-- C10: for a fixed allow-list the CORS decision is a function of the
origin header alone — requests agreeing on the origin header receive the
same decision whatever their method, path or body — and the callback
never reports an error. -/
theorem C10_cors_deterministic :
    (∀ (origins : List String) (r1 r2 : Request),
      r1.originHeader = r2.originHeader →
      corsDecisionFor origins r1 = corsDecisionFor origins r2) ∧
    (∀ (origins : List String) (req : Request),
      (corsDecisionFor origins req).error = none) := by
  constructor
  · intro origins r1 r2 h
    unfold corsDecisionFor
    rw [h]
  · intro origins req
    exact corsOriginCallback_error_none origins req.originHeader

/-- C10 witness: two concrete requests differing in method, path, body
and addresses but sharing an origin header receive the same decision. -/
theorem C10_witness :
    corsDecisionFor [("https://a.com")] sampleCreateReq
      = corsDecisionFor [("https://a.com")] sampleOtherReq :=
  C10_cors_deterministic.1 [("https://a.com")] sampleCreateReq sampleOtherReq rfl

/-- C5 counterexample: with allow-list `["https://a.com"]` and a request
carrying an empty `Origin:` header, the code permits the request (the
empty origin is falsy), while the claim — origin header present and not
a member of the allow-list — says it is rejected. -/
theorem C5_empty_origin_counterexample :
    ¬ ((corsOriginCallback [("https://a.com")] (some (""))).allow
        = specCorsAllow [("https://a.com")] (some (""))) := by
  decide

/-- C5 (amended): a request is permitted, with credentials allowed, iff
the allow-list is empty, or the origin header is absent or empty, or the
origin is a member of the allow-list; the callback passes no error, the
check runs on every path, and the allow-list is the comma-separated,
trimmed, non-empty entries of the CORS_ORIGIN configuration. -/
theorem C5_cors_policy_amended :
    (∀ (origins : List String) (origin : Option String),
      (corsOriginCallback origins origin).allow = specCorsAllowAmended origins origin) ∧
    (∀ (origins : List String) (origin : Option String),
      (corsOriginCallback origins origin).error = none) ∧
    corsConfig.credentials = true ∧
    (∀ p, corsAppliesTo p = true) ∧
    corsOrigins (some ("https://a.com, https://b.com"))
      = [("https://a.com"), ("https://b.com")] ∧
    corsOrigins none = [] ∧
    corsOrigins (some ("")) = [] := by
  refine ⟨?_, corsOriginCallback_error_none, rfl, fun _ => rfl, by decide, by decide, by decide⟩
  intro origins origin
  cases origin with
  | none => simp [corsOriginCallback, specCorsAllowAmended]
  | some s =>
    by_cases hs : s = ""
    · simp [corsOriginCallback, specCorsAllowAmended, hs]
    · by_cases he : origins.isEmpty
      · simp [corsOriginCallback, specCorsAllowAmended, hs, he]
      · by_cases hm : s ∈ origins
        · simp [corsOriginCallback, specCorsAllowAmended, hs, he, hm]
        · simp [corsOriginCallback, specCorsAllowAmended, hs, he, hm]

/-- C7 counterexample: on a bind error other than address-in-use the
claim says the process is aborted, but the handler only logs the error —
with every port failing with `EACCES`, the loop ends in a logged,
non-aborting stop. -/
theorem C7_no_abort_counterexample :
    startServer (fun _ => BindOutcome.otherErr ("EACCES")) 1 8080
      = some (StartResult.erroredOut ("EACCES") false) ∧
    ¬ ((startServer (fun _ => BindOutcome.otherErr ("EACCES")) 1 8080).map resultAborts
        = some true) := by
  decide

/-- C7 (amended): the server binds the configured port, 8080 by default;
on address-in-use it retries the next higher port, repeating until a
free port is found; on any other bind error it logs the error and stops
retrying, without explicitly aborting the process. -/
theorem C7_start_retry_amended :
    defaultPort none = 8080 ∧
    (∀ (env : Nat → BindOutcome) (fuel port : Nat),
      env port = BindOutcome.ok →
      startServer env (fuel + 1) port = some (StartResult.listening port)) ∧
    (∀ (env : Nat → BindOutcome) (fuel port : Nat),
      env port = BindOutcome.addrInUse →
      startServer env (fuel + 1) port = startServer env fuel (port + 1)) ∧
    (∀ (env : Nat → BindOutcome) (fuel port : Nat) (m : String),
      env port = BindOutcome.otherErr m →
      startServer env (fuel + 1) port = some (StartResult.erroredOut m false)) ∧
    (∀ (env : Nat → BindOutcome) (port n : Nat),
      (∀ i, i < n → env (port + i) = BindOutcome.addrInUse) →
      env (port + n) = BindOutcome.ok →
      ∀ fuel, n < fuel →
        startServer env fuel port = some (StartResult.listening (port + n))) := by
  refine ⟨rfl, ?_, ?_, ?_, ?_⟩
  · intro env fuel port h
    simp [startServer, h]
  · intro env fuel port h
    simp [startServer, h]
  · intro env fuel port m h
    simp [startServer, h]
  · intro env port n
    induction n generalizing port with
    | zero =>
      intro _ hok fuel hf
      cases fuel with
      | zero => omega
      | succ f =>
        have h0 : env port = BindOutcome.ok := by simpa using hok
        simp [startServer, h0]
    | succ k ih =>
      intro hbusy hok fuel hf
      cases fuel with
      | zero => omega
      | succ f =>
        have h0 : env port = BindOutcome.addrInUse := by
          have := hbusy 0 (by omega)
          simpa using this
        have hbusy1 : ∀ i, i < k → env (port + 1 + i) = BindOutcome.addrInUse := by
          intro i hi
          have := hbusy (i + 1) (by omega)
          rw [show port + 1 + i = port + (i + 1) by omega]
          exact this
        have hok1 : env (port + 1 + k) = BindOutcome.ok := by
          rw [show port + 1 + k = port + (k + 1) by omega]
          exact hok
        have := ih (port + 1) hbusy1 hok1 f (by omega)
        rw [show port + (k + 1) = port + 1 + k by omega]
        simpa [startServer, h0] using this

/-- C7 witness: with ports 8080 and 8081 taken and 8082 free, three units
of fuel end with the server listening on 8082. -/
theorem C7_witness :
    startServer retryEnv 3 8080 = some (StartResult.listening (8080 + 2)) :=
  C7_start_retry_amended.2.2.2.2 retryEnv 8080 2 (by decide) (by decide) 3 (by decide)

/-- C2: for a submission passing validation (and addresses being
non-empty strings), the create endpoint prepends exactly one row, whose
originating address is the first forwarded address when that list is
non-empty and the resolved peer address otherwise, and whose stored meta
is the submitted object or the empty object when `meta` was omitted; it
responds 201 with ok, the new id and the creation timestamp. -/
theorem C2_create_success :
    ∀ (db : Db) (t : Int) (req : Request) (v : ValidatedQuery),
      QuerySchema.safeParse req.body = Except.ok v →
      (∀ s ∈ req.ips, s ≠ "") → req.ip ≠ some ("") →
      (postQueries db t none req).status = 201 ∧
      (postQueries db t none req).db.rows =
        (Row.mk db.nextId v.text
          (match req.ips with
            | i :: _ => some i
            | [] => req.ip)
          (storedMeta v.meta) t) :: db.rows ∧
      (postQueries db t none req).db.nextId = db.nextId + 1 ∧
      (postQueries db t none req).body =
        Json.obj [(("ok"), Json.bool true), (("id"), Json.num db.nextId),
          (("createdAt"), Json.num t)] ∧
      storedMeta none = Json.obj [] := by
  intro db t req v hok h1 h2
  have hip := clientIp_spec req h1 h2
  refine ⟨?_, ?_, ?_, ?_, rfl⟩ <;> simp [postQueries, hok, hip]

/-- C2 witness: a concrete valid submission with one forwarded address
and a meta object inserts the expected row and answers 201. -/
theorem C2_witness :
    (postQueries ⟨[], 1⟩ 0 none sampleCreateReq).status = 201 ∧
    (postQueries ⟨[], 1⟩ 0 none sampleCreateReq).db.rows =
      [Row.mk 1 ("hello") (some ("1.2.3.4"))
        (Json.obj [(("k"), Json.num 1)]) 0] := by
  have h := C2_create_success ⟨[], 1⟩ 0 sampleCreateReq
    ⟨("hello"), some [(("k"), Json.num 1)]⟩ (by rfl) (by decide) (by decide)
  exact ⟨h.1, h.2.1.trans rfl⟩

/-- C3: when validation fails the create endpoint answers 400 with the
fixed error text and the flattened, non-empty issue description, leaves
the database unchanged and issues no SQL; moreover validation succeeds
exactly on the bodies the claim calls valid (text a string of 1 to 2000
characters, meta absent or an object). -/
theorem C3_create_invalid :
    (∀ (db : Db) (t : Int) (dbFail : Option String) (req : Request) (e : ValErrors),
      QuerySchema.safeParse req.body = Except.error e →
      (postQueries db t dbFail req).status = 400 ∧
      (postQueries db t dbFail req).db = db ∧
      (postQueries db t dbFail req).events = [] ∧
      (postQueries db t dbFail req).body =
        Json.obj [(("error"), Json.str ("Invalid payload")),
          (("details"), flattenJson e)] ∧
      (e.formErrors ≠ [] ∨ e.fieldErrors ≠ [])) ∧
    (∀ body, exceptOk (QuerySchema.safeParse body) = specValidSubmission body) := by
  constructor
  · intro db t dbFail req e hbad
    refine ⟨?_, ?_, ?_, ?_, ?_⟩
    · simp [postQueries, hbad]
    · simp [postQueries, hbad]
    · simp [postQueries, hbad]
    · simp [postQueries, hbad]
    · rcases hb : req.body with _ | b | n | s | xs | fields
      all_goals rw [hb] at hbad
      case obj =>
        rcases ht : validateText (lookupField fields ("text")) with ets | tv <;>
          rcases hm : validateMeta (lookupField fields ("meta")) with ems | mv <;>
            simp [QuerySchema.safeParse, ht, hm] at hbad
        · right
          rw [← hbad]
          simp [fieldErrsOf]
        · right
          rw [← hbad]
          simp [fieldErrsOf]
        · right
          rw [← hbad]
          simp [fieldErrsOf]
      all_goals simp [QuerySchema.safeParse] at hbad
      all_goals left
      all_goals rw [← hbad]
      all_goals simp
  · intro body
    rcases body with _ | b | n | s | xs | fields
    case obj =>
      rw [specValidSubmission, exceptOk_safeParse_obj, exceptOk_validateText,
        exceptOk_validateMeta]
    all_goals rfl

/-- C3 witness: a body with empty text is rejected with status 400 and
the database is untouched. -/
theorem C3_witness :
    (postQueries sampleDb 0 none sampleBadReq).status = 400 ∧
    (postQueries sampleDb 0 none sampleBadReq).db = sampleDb := by
  have h := (C3_create_invalid.1 sampleDb 0 none sampleBadReq
    ⟨[], [(("text"), [("String must contain at least 1 character(s)")])]⟩ (by rfl))
  exact ⟨h.1, h.2.1⟩

/-- C4: a successful listing answers 200 with ok and the items obtained
by sorting the stored rows by `created_at` descending, cutting to the
effective limit, and projecting each row to exactly the fields
`id, text, ip, created_at` — never `meta`; the item count never exceeds
the effective limit, the items are pairwise ordered by descending
`created_at`, and every item stems from a stored row. -/
theorem C4_listing_success :
    ∀ (db : Db) (req : Request),
      (getQueries db none req).status = 200 ∧
      (getQueries db none req).body =
        Json.obj [(("ok"), Json.bool true),
          (("items"), Json.arr
            ((selectRecent db.rows (effectiveLimit req.limitParam).toNat).map rowToItem))] ∧
      (selectRecent db.rows (effectiveLimit req.limitParam).toNat).length
        ≤ (effectiveLimit req.limitParam).toNat ∧
      List.Pairwise (fun a b => b.created_at ≤ a.created_at)
        (selectRecent db.rows (effectiveLimit req.limitParam).toNat) ∧
      (∀ x ∈ selectRecent db.rows (effectiveLimit req.limitParam).toNat, x ∈ db.rows) ∧
      (∀ x ∈ selectRecent db.rows (effectiveLimit req.limitParam).toNat,
        itemKeys (rowToItem x) = [("id"), ("text"), ("ip"), ("created_at")]) ∧
      (getQueries db none req).db = db := by
  intro db req
  refine ⟨rfl, rfl, ?_, ?_, ?_, ?_, rfl⟩
  · unfold selectRecent
    rw [List.length_take]
    exact min_le_left _ _
  · unfold selectRecent
    exact List.Pairwise.sublist (List.take_sublist _ _)
      (pairwise_sortByCreatedDesc db.rows)
  · intro x hx
    unfold selectRecent at hx
    exact mem_sortByCreatedDesc.mp (List.mem_of_mem_take hx)
  · intro x _
    rfl

/-- C4 witness: listing a one-row database with `limit=1` answers 200
with the single projected item. -/
theorem C4_witness :
    (getQueries sampleDb none sampleListReq).status = 200 ∧
    (getQueries sampleDb none sampleListReq).body =
      Json.obj [(("ok"), Json.bool true),
        (("items"), Json.arr [Json.obj [(("id"), Json.num 1), (("text"), Json.str ("hi")),
          (("ip"), Json.null), (("created_at"), Json.num 5)]])] := by
  have h := C4_listing_success sampleDb sampleListReq
  exact ⟨h.1, h.2.1.trans rfl⟩

/-- C8: on a storage failure both data endpoints answer 500 with a fixed
fixed body that does not depend on the failure detail, log the failure
server-side, leave the database unchanged, and issue exactly one SQL
statement (no retry). -/
theorem C8_storage_failure :
    (∀ (db : Db) (t : Int) (req : Request) (v : ValidatedQuery) (e e2 : String),
      QuerySchema.safeParse req.body = Except.ok v →
      (postQueries db t (some e) req).status = 500 ∧
      (postQueries db t (some e) req).body =
        Json.obj [(("error"), Json.str ("DB insert failed"))] ∧
      (postQueries db t (some e) req).db = db ∧
      (postQueries db t (some e) req).events =
        [Event.dbQuery insertSql, Event.logError e] ∧
      ((postQueries db t (some e) req).events.filter isDbQuery).length = 1 ∧
      (postQueries db t (some e) req).body = (postQueries db t (some e2) req).body ∧
      (postQueries db t (some e) req).status = (postQueries db t (some e2) req).status) ∧
    (∀ (db : Db) (req : Request) (e e2 : String),
      (getQueries db (some e) req).status = 500 ∧
      (getQueries db (some e) req).body =
        Json.obj [(("error"), Json.str ("DB select failed"))] ∧
      (getQueries db (some e) req).db = db ∧
      (getQueries db (some e) req).events =
        [Event.dbQuery selectSql, Event.logError e] ∧
      ((getQueries db (some e) req).events.filter isDbQuery).length = 1 ∧
      (getQueries db (some e) req).body = (getQueries db (some e2) req).body ∧
      (getQueries db (some e) req).status = (getQueries db (some e2) req).status) := by
  constructor
  · intro db t req v e e2 hok
    refine ⟨?_, ?_, ?_, ?_, ?_, ?_, ?_⟩ <;> simp [postQueries, hok, isDbQuery]
  · intro db req e e2
    exact ⟨rfl, rfl, rfl, rfl, rfl, rfl, rfl⟩

/-- C8 witness: a concrete storage failure yields 500 on both the create
and the listing endpoint. -/
theorem C8_witness :
    (postQueries sampleDb 0 (some ("boom")) sampleCreateReq).status = 500 ∧
    (getQueries sampleDb (some ("boom")) sampleListReq).status = 500 := by
  refine ⟨(C8_storage_failure.1 sampleDb 0 sampleCreateReq
    ⟨("hello"), some [(("k"), Json.num 1)]⟩ ("boom") ("x") (by rfl)).1,
    (C8_storage_failure.2 sampleDb sampleListReq ("boom") ("x")).1⟩

/-- Reading back the count just written for a key. -/
theorem getCount_setCount_self (counts : List (String × Nat)) (k : String) (n : Nat) :
    getCount (setCount counts k n) k = n := by
  induction counts with
  | nil => simp [setCount, getCount]
  | cons p rest ih =>
    by_cases h : p.1 = k
    · simp [setCount, h, getCount]
    · simp [setCount, h, getCount, ih]

/-- Writing a count for one key leaves other keys unchanged. -/
theorem getCount_setCount_ne (counts : List (String × Nat)) (kp k : String) (n : Nat)
    (h : kp ≠ k) : getCount (setCount counts kp n) k = getCount counts k := by
  induction counts with
  | nil => simp [setCount, getCount, h]
  | cons p rest ih =>
    have hks : k ≠ kp := Ne.symm h
    by_cases hp : p.1 = kp
    · simp [setCount, hp, getCount, h, hks]
    · by_cases hk : p.1 = k
      · simp [setCount, hp, getCount, hk, hks]
      · simp [setCount, hp, getCount, hk, hks, ih]

/-- Fixed-window bound: over any run whose requests all fall into the
window the state is in, the requests allowed for one key, plus the hits
that key already has (capped at the limit), stay within the limit. -/
theorem rlRun_allowed_bound :
    ∀ (es : List (Nat × String)) (st : RateState) (k : String) (w : Nat),
      st.windowIdx = w →
      (∀ e ∈ es, e.1 / rlConfig.windowMs = w) →
      allowedCountFor k es (rlRun st es).2 + min (getCount st.counts k) rlConfig.max
        ≤ rlConfig.max := by
  intro es
  induction es with
  | nil =>
    intro st k w hw hall
    simp only [rlRun, allowedCountFor, Nat.zero_add]
    exact min_le_right _ _
  | cons e es ih =>
    intro st k w hw hall
    have he : e.1 / rlConfig.windowMs = w := hall e (List.mem_cons_self e es)
    have hstep : rlStep st e.1 e.2
        = (⟨st.windowIdx, setCount st.counts e.2 (getCount st.counts e.2 + 1)⟩,
           decide (getCount st.counts e.2 + 1 ≤ rlConfig.max)) := by
      unfold rlStep
      rw [he, hw]
      simp [hw]
    have hall1 : ∀ x ∈ es, x.1 / rlConfig.windowMs = w :=
      fun x hx => hall x (List.mem_cons_of_mem e hx)
    have IH := ih (RateState.mk st.windowIdx
      (setCount st.counts e.2 (getCount st.counts e.2 + 1))) k w hw hall1
    simp only [rlRun, hstep, allowedCountFor]
    by_cases hk : e.2 = k
    · subst hk
      rw [getCount_setCount_self] at IH
      by_cases hc : getCount st.counts e.2 + 1 ≤ rlConfig.max
      · rw [decide_eq_true hc, if_pos (And.intro rfl rfl)]
        rw [min_eq_left hc] at IH
        rw [min_eq_left (by omega : getCount st.counts e.2 ≤ rlConfig.max)]
        omega
      · rw [decide_eq_false hc, if_neg (fun hcon => Bool.false_ne_true hcon.2)]
        rw [min_eq_right (by omega : rlConfig.max ≤ getCount st.counts e.2 + 1)] at IH
        have hle : min (getCount st.counts e.2) rlConfig.max ≤ rlConfig.max :=
          min_le_right _ _
        omega
    · rw [getCount_setCount_ne _ _ _ _ hk] at IH
      rw [if_neg (fun hcon => hk hcon.1)]
      omega

/-- C6: the limiter runs only on API paths, keys on the resolved client
address, and uses a 60 second window with limit 60, standard rate-limit
headers and no legacy headers; within one fixed window it never allows
more than 60 requests from one key, and of 61 same-window requests from
one address the first 60 are allowed and the 61st is rejected. -/
theorem C6_rate_limiter :
    (∀ (es : List (Nat × String)) (w : Nat) (k : String),
      (∀ e ∈ es, e.1 / rlConfig.windowMs = w) →
      allowedCountFor k es (rlRun ⟨w, []⟩ es).2 ≤ rlConfig.max) ∧
    (rlRun ⟨0, []⟩ sixtyOneRequests).2 = List.replicate 60 true ++ [false] ∧
    rlConfig.windowMs = 60000 ∧
    rlConfig.max = 60 ∧
    rlConfig.standardHeaders = true ∧
    rlConfig.legacyHeaders = false ∧
    rateLimitAppliesTo ("/api/queries") = true ∧
    rateLimitAppliesTo ("/queries") = false ∧
    (∀ req, rateLimitKey req = req.ip) := by
  refine ⟨?_, by decide, rfl, rfl, rfl, rfl, by decide, by decide, fun _ => rfl⟩
  intro es w k hall
  have h := rlRun_allowed_bound es ⟨w, []⟩ k w rfl hall
  simpa [getCount] using h

/-- C6 witness: over the 61 concrete same-window requests, the allowed
count for the shared address stays within the limit. -/
theorem C6_witness :
    allowedCountFor ("1.2.3.4") sixtyOneRequests
      (rlRun ⟨0, []⟩ sixtyOneRequests).2 ≤ rlConfig.max :=
  C6_rate_limiter.1 sixtyOneRequests 0 ("1.2.3.4") (by decide)

end Ksen
